import Mathlib

/-!
Shallow embedding of the invoice resolvers of `src/server/graphql/v1/queries.js`
(the `allInvoices`, `Invoice` and `TransactionInvoice` GraphQL queries together
with the helpers `validateDate` and `parseInvoiceSlug`), plus theorems checking
the natural-language specification against this embedding.

JavaScript dynamic values are modelled only as far as the resolvers use them:
a value that is compared against a number bound is either a number or a string
(`JsVal`), string-to-number coercion (`ToNumber`) is modelled for the empty
string and for plain digit strings, with every other string mapping to `none`
(= `NaN`), and comparisons against `NaN` are `false`, as in JavaScript.
Timestamps are modelled at calendar-day granularity (`CalDate`); the date-range
comparisons of the `Invoice` resolver only ever compare against first-of-month
boundaries, so they are expressed on the month index `year * 12 + month`.
-/

namespace OpenCollective

/-- A JavaScript value flowing into a numeric comparison: either a number or a
string (the resolvers only ever compare these two shapes). -/
inductive JsVal where
  | num (n : Int)
  | str (s : String)
  deriving DecidableEq, Repr

/-- Decimal value of a digit string, `"0123" ↦ 123`. -/
def digitsToNat (s : String) : Nat :=
  s.data.foldl (fun a c => a * 10 + (c.toNat - 48)) 0

/-- JavaScript `ToNumber` on a string, restricted to the fragment the resolvers
exercise: the empty string is `0`, a nonempty all-digit string is its decimal
value, and every other string is `NaN` (modelled as `none`). -/
def jsStringToNumber (s : String) : Option Int :=
  if s = "" then some 0
  else if s.data.all Char.isDigit then some (digitsToNat s)
  else none

/-- JavaScript `ToNumber` of a `JsVal`; `none` models `NaN`. -/
def jsToNumber : JsVal → Option Int
  | .num n => some n
  | .str s => jsStringToNumber s

/-- JavaScript `v < bound` where `v` is coerced to a number; a `NaN` comparison
is `false`. -/
def jsLt (v : JsVal) (bound : Int) : Bool :=
  match jsToNumber v with
  | some x => decide (x < bound)
  | none => false

/-- JavaScript `v > bound` where `v` is coerced to a number; a `NaN` comparison
is `false`. -/
def jsGt (v : JsVal) (bound : Int) : Bool :=
  match jsToNumber v with
  | some x => decide (bound < x)
  | none => false

/-- JavaScript `String(Number(s) + 1)` as used for the `dateTo` month of
`parseInvoiceSlug`. -/
def jsStrSucc (s : String) : String :=
  match jsStringToNumber s with
  | some x => toString (x + 1)
  | none => "NaN"

/-- JavaScript `s.substr(start, length)` (ASCII strings, so code units are
characters). A negative start counts from the end of the string. -/
def jsSubstr (s : String) (start : Int) (length : Nat) : String :=
  let st := if start < 0 then (max ((s.data.length : Int) + start) 0).toNat else start.toNat
  ⟨(s.data.drop st).take length⟩

/-- JavaScript `s.substr(start)` (take everything from `start` to the end). -/
def jsSubstrToEnd (s : String) (start : Int) : String :=
  let st := if start < 0 then (max ((s.data.length : Int) + start) 0).toNat else start.toNat
  ⟨s.data.drop st⟩

/-- JavaScript `s.substring(a, b)`: negative indices clamp to `0`, indices past
the end clamp to the length, and the two indices are swapped when `a > b`. -/
def jsSubstring (s : String) (a b : Int) : String :=
  let len := s.data.length
  let a2 := min (max a 0).toNat len
  let b2 := min (max b 0).toNat len
  ⟨(s.data.take (max a2 b2)).drop (min a2 b2)⟩

/-- JavaScript `s.lastIndexOf(c)`: index of the last occurrence of `c`, or
`-1` when `c` does not occur. -/
def jsLastIndexOf (s : String) (c : Char) : Int :=
  match s.data.reverse.findIdx? (fun x => x == c) with
  | some i => (s.data.length : Int) - 1 - i
  | none => -1

/-- Calendar date of a transaction `createdAt` timestamp (sub-day precision is
never observed by the resolvers modelled here). -/
structure CalDate where
  year : Nat
  month : Nat
  day : Nat
  deriving DecidableEq, Repr

/-- Month index of a calendar date, the order-faithful image of a first-of-month
timestamp. -/
def monthIndex (d : CalDate) : Int :=
  (d.year : Int) * 12 + d.month

/-- The fields of a Transaction row consumed by the invoice resolvers.
`paymentMethodProviderCollectiveId` — Modelled from the spec: the method
`transaction.paymentMethodProviderCollectiveId()` lives in the Transaction
model, which is not part of this fragment; per the spec it resolves the billed
collective via the transaction's payment-method provider (virtual-card
attribution). It is modelled as an opaque per-transaction value. -/
structure Transaction where
  uuid : String
  type : String
  FromCollectiveId : Nat
  UsingVirtualCardFromCollectiveId : Option Nat
  HostCollectiveId : Nat
  createdAt : CalDate
  amount : Int
  amountInHostCurrency : Int
  netAmountInCollectiveCurrency : Int
  hostCurrency : String
  paymentMethodProviderCollectiveId : Nat
  deriving DecidableEq, Repr

/-- The fields of a Collective row consumed by the invoice resolvers;
`invoiceTitle` is `get(collective, 'settings.invoiceTitle')`, `none` when the
settings path is absent. -/
structure Collective where
  id : Nat
  slug : String
  currency : String
  invoiceTitle : Option String
  deriving DecidableEq, Repr

/-- The caller identity: `req.remoteUser.isAdmin(id)` is membership in
`adminCollectiveIds`. -/
structure RemoteUser where
  adminCollectiveIds : List Nat
  deriving DecidableEq, Repr

/-- Model of `remoteUser.isAdmin(collectiveId)`. -/
def RemoteUser.isAdmin (u : RemoteUser) (cid : Nat) : Bool :=
  u.adminCollectiveIds.contains cid

/-- The slice of the relational store the resolvers read. -/
structure Database where
  collectives : List Collective
  transactions : List Transaction
  deriving DecidableEq, Repr

/-- Model of `models.Collective.findOne({ where: { slug } })` /
`findBySlug`. -/
def findCollectiveBySlug (db : Database) (s : String) : Option Collective :=
  db.collectives.find? (fun c => c.slug == s)

/-- Model of `models.Collective.findByPk(id)`. -/
def findCollectiveById (db : Database) (i : Nat) : Option Collective :=
  db.collectives.find? (fun c => c.id == i)

deriving instance DecidableEq for Except

/-- The errors the resolvers surface. `jsRuntimeError` models a JavaScript
`TypeError` crash (reading `.slug` of a `null` host collective in
`allInvoices`), which is not one of the declared error classes. -/
inductive QueryError where
  | notFound (msg : String)
  | unauthorized (msg : String)
  | validationFailed (msg : String)
  | jsRuntimeError (msg : String)
  deriving DecidableEq, Repr

/-- A `{year, month}` date object as passed to `validateDate`: the components
are numbers when they come from `InvoiceInputType` and strings when they come
from `parseInvoiceSlug`. -/
structure DateObj where
  year : JsVal
  month : JsVal
  deriving DecidableEq, Repr

/-- The `validateDate` rejection message (queries.js line 1293). -/
def invalidDateMsg : String :=
  "Invalid date object. Must have a valid month, where 1 == January, and be after 2014"

/-- Embedding of `validateDate` (queries.js lines 1288-1296). -/
def validateDate (dateObj : DateObj) : Except QueryError Unit :=
  if jsLt dateObj.year 2015 || (jsLt dateObj.month 1 || jsGt dateObj.month 12) then
    .error (.validationFailed invalidDateMsg)
  else
    .ok ()

/-- The record `parseInvoiceSlug` returns, which is also the shape of the
`invoiceInputType` argument of the `Invoice` query. -/
structure InvoiceInput where
  dateFrom : DateObj
  dateTo : DateObj
  collectiveSlug : String
  fromCollectiveSlug : String
  deriving DecidableEq, Repr

/-- Embedding of `parseInvoiceSlug` (queries.js lines 1298-1320). The year and
month components stay strings, exactly as in the source, and the bound checks
go through JavaScript number coercion. -/
def parseInvoiceSlug (invoiceSlug : String) : Except QueryError InvoiceInput :=
  let year := jsSubstr invoiceSlug 0 4
  let month := jsSubstr invoiceSlug 4 2
  let collectiveSlug := jsSubstring invoiceSlug 7 (jsLastIndexOf invoiceSlug '.')
  let fromCollectiveSlug := jsSubstrToEnd invoiceSlug (jsLastIndexOf invoiceSlug '.' + 1)
  if collectiveSlug == "" || jsLt (.str year) 2015 || (jsLt (.str month) 1 || jsGt (.str month) 12) then
    .error (.validationFailed
      "Invalid invoiceSlug format. Should be :year:2digitMonth.:hostSlug.:fromCollectiveSlug")
  else
    .ok { dateFrom := { year := .str year, month := .str month },
          dateTo := { year := .str year, month := .str (jsStrSucc month) },
          collectiveSlug := collectiveSlug,
          fromCollectiveSlug := fromCollectiveSlug }

/-- Fuel-driven decimal digit rendering, structurally recursive so that the
kernel can evaluate it; `natDigits` supplies sufficient fuel. -/
def natDigitsAux : Nat → Nat → List Char
  | 0, _ => []
  | fuel + 1, n =>
    if n < 10 then [Nat.digitChar n]
    else natDigitsAux fuel (n / 10) ++ [Nat.digitChar (n % 10)]

/-- Decimal digit list of a natural number, most significant digit first
(the rendering a JavaScript template literal performs on a number). -/
def natDigits (n : Nat) : List Char :=
  natDigitsAux (n + 1) n

/-- Decimal rendering of a natural number, as in `` `${year}` ``. -/
def renderNat (n : Nat) : String :=
  ⟨natDigits n⟩

/-- Embedding of ``month < 10 ? `0${month}` : `${month}` ``. -/
def month2digit (m : Nat) : String :=
  if m < 10 then "0" ++ renderNat m else renderNat m

/-- One entry of the list `allInvoices` returns (the monthly-summary shape of
Invoice built at queries.js lines 154-162). -/
structure MonthlyInvoice where
  HostCollectiveId : Nat
  FromCollectiveId : Nat
  slug : String
  year : Nat
  month : Nat
  totalAmount : Int
  currency : String
  deriving DecidableEq, Repr

/-- The grouping key `` `${year}${month2digit}.${hostSlug}.${fromSlug}` `` of
queries.js line 150. -/
def monthlyKey (hostSlug fromSlug : String) (t : Transaction) : String :=
  renderNat t.createdAt.year ++ month2digit t.createdAt.month ++ "." ++ hostSlug ++ "." ++ fromSlug

/-- One step of the `invoicesByKey` accumulation of queries.js lines 139-163:
on a key hit the record is rebuilt from the current transaction with the
running `totalAmount`, on a miss a fresh record is appended (JavaScript object
keys keep insertion order). -/
def upsertInvoice (hostSlugOf : Nat → String) (fromCollective : Collective)
    (acc : List MonthlyInvoice) (t : Transaction) : List MonthlyInvoice :=
  let slug := monthlyKey (hostSlugOf t.HostCollectiveId) fromCollective.slug t
  if acc.any (fun inv => inv.slug == slug) then
    acc.map (fun inv =>
      if inv.slug == slug then
        { HostCollectiveId := t.HostCollectiveId, FromCollectiveId := fromCollective.id,
          slug := slug, year := t.createdAt.year, month := t.createdAt.month,
          totalAmount := inv.totalAmount + t.amountInHostCurrency, currency := t.hostCurrency }
      else inv)
  else
    acc ++ [{ HostCollectiveId := t.HostCollectiveId, FromCollectiveId := fromCollective.id,
              slug := slug, year := t.createdAt.year, month := t.createdAt.month,
              totalAmount := t.amountInHostCurrency, currency := t.hostCurrency }]

/-- Slug of the host collective with the given id, as read by
`hostsById[HostCollectiveId].slug`; the default is never reached when the host
row exists. -/
def hostSlugInDb (db : Database) (hid : Nat) : String :=
  ((findCollectiveById db hid).map (fun c => c.slug)).getD ""

/-- The per-transaction body of the `Promise.map` of queries.js lines 139-163:
looking up a missing host collective makes `hostsById[id].slug` a JavaScript
`TypeError`, modelled as `jsRuntimeError`. -/
def upsertInvoiceM (db : Database) (fromCollective : Collective)
    (acc : List MonthlyInvoice) (t : Transaction) : Except QueryError (List MonthlyInvoice) :=
  match findCollectiveById db t.HostCollectiveId with
  | none => .error (.jsRuntimeError "Cannot read properties of null host collective")
  | some _ => .ok (upsertInvoice (hostSlugInDb db) fromCollective acc t)

/-- The transaction predicate shared by `allInvoices` and `Invoice`
(queries.js lines 130-133 and 223-226): billed directly without a virtual
card, or routed through the payer's virtual card. -/
def txMatchesFrom (fromId : Nat) (t : Transaction) : Bool :=
  (t.FromCollectiveId == fromId && t.UsingVirtualCardFromCollectiveId == none)
  || t.UsingVirtualCardFromCollectiveId == some fromId

/-- The `Transaction.findAll` of `allInvoices` (queries.js lines 126-135). -/
def allInvoicesFetch (db : Database) (fromId : Nat) : List Transaction :=
  db.transactions.filter (fun t => t.type == "CREDIT" && txMatchesFrom fromId t)

/-- The message of the admin-check `Unauthorized` error, shared verbatim by
`allInvoices` (line 123) and `Invoice` (line 205). -/
def unauthorizedInvoicesMsg : String :=
  "You don't have permission to access invoices for this user"

/-- The comparator `(a, b) => a.slug > b.slug ? -1 : 1` of queries.js lines
166-168, as the stable-sort order relation: `a` may precede `b` exactly when
`a.slug` is not lexicographically below `b.slug` (stated on the character
lists so the order is computable by structural recursion). -/
def slugDesc (a b : MonthlyInvoice) : Prop :=
  ¬ List.lt a.slug.data b.slug.data

instance : DecidableRel slugDesc :=
  fun a b => @instDecidableNot _ (List.hasDecidableLt a.slug.data b.slug.data)

/-- Embedding of the `allInvoices` resolver (queries.js lines 110-171). -/
def allInvoices (db : Database) (remoteUser : Option RemoteUser)
    (fromCollectiveSlug : String) : Except QueryError (List MonthlyInvoice) :=
  match findCollectiveBySlug db fromCollectiveSlug with
  | none => .error (.notFound "User or organization not found")
  | some fromCollective =>
    match remoteUser with
    | none => .error (.unauthorized unauthorizedInvoicesMsg)
    | some u =>
      if !u.isAdmin fromCollective.id then
        .error (.unauthorized unauthorizedInvoicesMsg)
      else
        let transactions := allInvoicesFetch db fromCollective.id
        match transactions.foldlM (upsertInvoiceM db fromCollective) [] with
        | .error e => .error e
        | .ok invoicesByKey => .ok (invoicesByKey.insertionSort slugDesc)

/-- The shape of Invoice the date-range `Invoice` resolver returns
(queries.js lines 237-258); `slug` is the raw `args.invoiceSlug`, absent when
the query came through `invoiceInputType`. -/
structure RangeInvoice where
  title : String
  HostCollectiveId : Nat
  FromCollectiveId : Nat
  slug : Option String
  yearFrom : JsVal
  monthFrom : JsVal
  yearTo : JsVal
  monthTo : JsVal
  totalAmount : Int
  currency : String
  transactions : List Transaction
  deriving DecidableEq, Repr

/-- Value of `` new Date(`${year}-${month}-01`) `` on the month index scale;
`none` models an Invalid Date (non-numeric component, or a month outside
`1..12`, which no date-string parser accepts). -/
def jsDateFromYM (year month : JsVal) : Option Int :=
  match jsToNumber year, jsToNumber month with
  | some y, some m => if 1 ≤ m && m ≤ 12 then some (y * 12 + m) else none
  | _, _ => none

/-- JavaScript `<` on two Date values; any comparison with an Invalid Date is
`false`. -/
def jsDateLtOpt : Option Int → Option Int → Bool
  | some a, some b => decide (a < b)
  | _, _ => false

/-- The `createdAt: { gte: startsAt, lt: endsAt }` range predicate; a `NaN`
bound (Invalid Date) matches nothing. -/
def inDateRange (startsAt endsAt : Option Int) (d : CalDate) : Bool :=
  (match startsAt with | some s => decide (s ≤ monthIndex d) | none => false)
  && (match endsAt with | some e => decide (monthIndex d < e) | none => false)

/-- The `Transaction.findAll` of the `Invoice` resolver (queries.js lines
222-232). -/
def rangeFetch (db : Database) (fromId hostId : Nat) (startsAt endsAt : Option Int) :
    List Transaction :=
  db.transactions.filter (fun t =>
    txMatchesFrom fromId t && t.HostCollectiveId == hostId
      && inDateRange startsAt endsAt t.createdAt && t.type == "CREDIT")

/-- JavaScript `v || d` on an optional string (both `undefined` and the empty
string are falsy). -/
def jsOrDefault (v : Option String) (d : String) : String :=
  match v with
  | some s => if s == "" then d else s
  | none => d

/-- The value `invoice.currency` holds after the `reduce` of queries.js lines
247-251: the `hostCurrency` of the last transaction, `none` when the list is
empty. -/
def lastHostCurrency (ts : List Transaction) : Option String :=
  ts.foldl (fun _ t => some t.hostCurrency) none

/-- The two ways of invoking the `Invoice` query: a slug, or the pre-split
`invoiceInputType` (the source picks the slug branch when `args.invoiceSlug`
is truthy). -/
inductive InvoiceArgs where
  | bySlug (invoiceSlug : String)
  | byInput (input : InvoiceInput)
  deriving DecidableEq, Repr

/-- The message of the date-order `ValidationError` (queries.js line 218). -/
def dateOrderMsg : String :=
  "Invalid date object. dateFrom must be before dateTo"

/-- Embedding of the date-range `Invoice` resolver (queries.js lines 173-260). -/
def invoiceResolver (db : Database) (remoteUser : Option RemoteUser)
    (args : InvoiceArgs) : Except QueryError RangeInvoice :=
  match (match args with
         | .bySlug s => parseInvoiceSlug s
         | .byInput i => .ok i) with
  | .error e => .error e
  | .ok input =>
    match validateDate input.dateFrom with
    | .error e => .error e
    | .ok _ =>
      match validateDate input.dateTo with
      | .error e => .error e
      | .ok _ =>
        match findCollectiveBySlug db input.fromCollectiveSlug with
        | none => .error (.notFound "User or organization not found for slug undefined")
        | some fromCollective =>
          match findCollectiveBySlug db input.collectiveSlug with
          | none => .error (.notFound "Host not found")
          | some host =>
            match remoteUser with
            | none => .error (.unauthorized unauthorizedInvoicesMsg)
            | some u =>
              if !u.isAdmin fromCollective.id then
                .error (.unauthorized unauthorizedInvoicesMsg)
              else
                let startsAt := jsDateFromYM input.dateFrom.year input.dateFrom.month
                let endsAt := jsDateFromYM input.dateTo.year input.dateTo.month
                if jsDateLtOpt endsAt startsAt then
                  .error (.validationFailed dateOrderMsg)
                else
                  let transactions := rangeFetch db fromCollective.id host.id startsAt endsAt
                  if transactions.isEmpty then
                    .error (.notFound "No transactions found")
                  else
                    .ok
                      { title := jsOrDefault host.invoiceTitle "Donation Receipt"
                        HostCollectiveId := host.id
                        FromCollectiveId := fromCollective.id
                        slug := match args with | .bySlug s => some s | .byInput _ => none
                        yearFrom := input.dateFrom.year
                        monthFrom := input.dateFrom.month
                        yearTo := input.dateTo.year
                        monthTo := input.dateTo.month
                        totalAmount := transactions.foldl (fun tot t => tot + t.amountInHostCurrency) 0
                        currency := jsOrDefault (lastHostCurrency transactions) host.currency
                        transactions := transactions }

/-- The shape of Invoice the `TransactionInvoice` resolver returns
(queries.js lines 294-305); `HostCollectiveId` is `get(transaction.host, 'id')`,
absent when the host row is missing. -/
structure SingleTransactionInvoice where
  title : String
  HostCollectiveId : Option Nat
  slug : String
  currency : String
  FromCollectiveId : Nat
  totalAmount : Int
  transactions : List Transaction
  yearFrom : Nat
  monthFrom : Nat
  day : Nat
  deriving DecidableEq, Repr

/-- Embedding of the `TransactionInvoice` resolver (queries.js lines 265-309);
`transaction.getHostCollective()` is the association lookup by
`HostCollectiveId`. -/
def transactionInvoice (db : Database) (transactionUuid : String) :
    Except QueryError SingleTransactionInvoice :=
  match db.transactions.find? (fun t => t.uuid == transactionUuid) with
  | none => .error (.notFound ("Transaction " ++ transactionUuid ++ " doesn't exists"))
  | some transaction =>
    let host := findCollectiveById db transaction.HostCollectiveId
    let totalAmountInHostCurrency :=
      if transaction.type == "CREDIT" then transaction.amount
      else transaction.netAmountInCollectiveCurrency * -1
    .ok { title := jsOrDefault (host.bind (fun h => h.invoiceTitle)) "Donation Receipt"
          HostCollectiveId := host.map (fun h => h.id)
          slug := "transaction-" ++ transactionUuid
          currency := transaction.hostCurrency
          FromCollectiveId := transaction.paymentMethodProviderCollectiveId
          totalAmount := totalAmountInHostCurrency
          transactions := [transaction]
          yearFrom := transaction.createdAt.year
          monthFrom := transaction.createdAt.month
          day := transaction.createdAt.day }

/-- The `startsAt` Date of the `Invoice` resolver (queries.js line 211), on
the month-index scale. -/
def rangeStartsAt (input : InvoiceInput) : Option Int :=
  jsDateFromYM input.dateFrom.year input.dateFrom.month

/-- The `endsAt` Date of the `Invoice` resolver (queries.js line 212), on the
month-index scale. -/
def rangeEndsAt (input : InvoiceInput) : Option Int :=
  jsDateFromYM input.dateTo.year input.dateTo.month

/-- The transactions the `Invoice` resolver fetches for a given input once the
collectives are resolved. -/
def rangeTransactions (db : Database) (fromCollective host : Collective)
    (input : InvoiceInput) : List Transaction :=
  rangeFetch db fromCollective.id host.id (rangeStartsAt input) (rangeEndsAt input)

/-- The (year, month, host) group predicate on transactions. -/
def txInGroup (y m h : Nat) (t : Transaction) : Bool :=
  t.createdAt.year == y && (t.createdAt.month == m && t.HostCollectiveId == h)

/-- The (year, month, host) group predicate on monthly invoices. -/
def invInGroup (y m h : Nat) (inv : MonthlyInvoice) : Bool :=
  inv.year == y && (inv.month == m && inv.HostCollectiveId == h)

/-! ### Concrete fixtures

A small database in the shape of the invoice test suite
(`test/graphql.invoices.test.js`): one payer, one host plus a second host,
three CREDIT transactions across two months, and one DEBIT transaction. -/

/-- A payer collective. -/
def payerFx : Collective :=
  { id := 1, slug := "alice", currency := "USD", invoiceTitle := none }

/-- A host collective. -/
def hostFx : Collective :=
  { id := 2, slug := "hosty", currency := "EUR", invoiceTitle := none }

/-- A second host collective. -/
def hostFx2 : Collective :=
  { id := 3, slug := "other", currency := "USD", invoiceTitle := none }

/-- An admin of the payer collective. -/
def adminFx : RemoteUser :=
  { adminCollectiveIds := [1] }

/-- A CREDIT transaction from the payer to the host. -/
def creditTxFx (u : String) (d : CalDate) (amt : Int) : Transaction :=
  { uuid := u, type := "CREDIT", FromCollectiveId := 1,
    UsingVirtualCardFromCollectiveId := none, HostCollectiveId := 2,
    createdAt := d, amount := amt, amountInHostCurrency := amt,
    netAmountInCollectiveCurrency := amt, hostCurrency := "EUR",
    paymentMethodProviderCollectiveId := 1 }

/-- A DEBIT transaction with a negative net amount. -/
def debitTxFx : Transaction :=
  { uuid := "tx-debit", type := "DEBIT", FromCollectiveId := 1,
    UsingVirtualCardFromCollectiveId := none, HostCollectiveId := 2,
    createdAt := ⟨2017, 9, 3⟩, amount := 800, amountInHostCurrency := 800,
    netAmountInCollectiveCurrency := -800, hostCurrency := "EUR",
    paymentMethodProviderCollectiveId := 1 }

/-- A numeric invoice input with equal `dateFrom` and `dateTo`. -/
def inputFxEq : InvoiceInput :=
  { dateFrom := { year := .num 2017, month := .num 10 },
    dateTo := { year := .num 2017, month := .num 10 },
    collectiveSlug := "hosty", fromCollectiveSlug := "alice" }

/-- A numeric invoice input covering October 2017. -/
def inputFxOct : InvoiceInput :=
  { dateFrom := { year := .num 2017, month := .num 10 },
    dateTo := { year := .num 2017, month := .num 11 },
    collectiveSlug := "hosty", fromCollectiveSlug := "alice" }

/-- A numeric invoice input whose host slug matches no collective. -/
def inputFxMissingHost : InvoiceInput :=
  { dateFrom := { year := .num 2015, month := .num 1 },
    dateTo := { year := .num 2015, month := .num 1 },
    collectiveSlug := "missing", fromCollectiveSlug := "alice" }

/-- The concrete database used by witnesses and counterexamples. -/
def dbFx : Database :=
  { collectives := [payerFx, hostFx, hostFx2],
    transactions :=
      [creditTxFx "t1" ⟨2017, 9, 15⟩ 1000,
       creditTxFx "t2" ⟨2017, 10, 2⟩ 1000,
       creditTxFx "t3" ⟨2017, 10, 20⟩ 500,
       debitTxFx] }

end OpenCollective

namespace OpenCollective

/-! ## Theorems -/

/-- Once parsing, date validation, collective resolution and the admin check
succeed, the `Invoice` resolver reduces to the date-order check, the fetch and
the final invoice construction. -/
theorem invoiceResolver_pastValidation (db : Database) (u : RemoteUser)
    (input : InvoiceInput) (fromCollective host : Collective)
    (hvf : validateDate input.dateFrom = .ok ())
    (hvt : validateDate input.dateTo = .ok ())
    (hfc : findCollectiveBySlug db input.fromCollectiveSlug = some fromCollective)
    (hh : findCollectiveBySlug db input.collectiveSlug = some host)
    (hadmin : u.isAdmin fromCollective.id = true) :
    invoiceResolver db (some u) (.byInput input)
      = if jsDateLtOpt (rangeEndsAt input) (rangeStartsAt input) then
          .error (.validationFailed dateOrderMsg)
        else if (rangeTransactions db fromCollective host input).isEmpty then
          .error (.notFound "No transactions found")
        else
          .ok { title := jsOrDefault host.invoiceTitle "Donation Receipt"
                HostCollectiveId := host.id
                FromCollectiveId := fromCollective.id
                slug := none
                yearFrom := input.dateFrom.year
                monthFrom := input.dateFrom.month
                yearTo := input.dateTo.year
                monthTo := input.dateTo.month
                totalAmount := (rangeTransactions db fromCollective host input).foldl
                  (fun tot t => tot + t.amountInHostCurrency) 0
                currency := jsOrDefault
                  (lastHostCurrency (rangeTransactions db fromCollective host input)) host.currency
                transactions := rangeTransactions db fromCollective host input } := by
  simp only [invoiceResolver, hvf, hvt, hfc, hh, hadmin, Bool.not_true,
    rangeStartsAt, rangeEndsAt, rangeTransactions, Bool.false_eq_true, if_false]

/-- The JavaScript `<` on equal Date values is `false`. -/
theorem jsDateLtOpt_irrefl (o : Option Int) : jsDateLtOpt o o = false := by
  cases o <;> simp [jsDateLtOpt]

/-- The running total-amount fold equals the initial value plus the mapped sum. -/
theorem foldl_add_amount (ts : List Transaction) (init : Int) :
    ts.foldl (fun tot t => tot + t.amountInHostCurrency) init
      = init + (ts.map (fun t => t.amountInHostCurrency)).sum := by
  induction ts generalizing init with
  | nil => simp
  | cons t rest ih => simp [ih, add_assoc]

/-- On a nonempty list of transactions sharing one `hostCurrency`, the
last-writer-wins fold yields that currency whatever its initial value. -/
theorem foldl_lastCurrency (c : String) :
    ∀ (ts : List Transaction) (init : Option String), ts ≠ [] →
      (∀ t ∈ ts, t.hostCurrency = c) →
      ts.foldl (fun _ t => some t.hostCurrency) init = some c := by
  intro ts
  induction ts with
  | nil => exact fun init hne _ => absurd rfl hne
  | cons t rest ih =>
    intro init _ hall
    cases rest with
    | nil => simp [hall t (by simp)]
    | cons t2 rest2 =>
      exact ih (some t.hostCurrency) (by simp)
        (fun x hx => hall x (List.mem_cons_of_mem _ hx))

/-- C6: `validateDate` on a numeric `{year, month}` object throws the
`ValidationError` with message "Invalid date object. Must have a valid month,
where 1 == January, and be after 2014" exactly when `year < 2015` or
`month < 1` or `month > 12`; concretely `{2014, 6}`, `{2017, 0}` and
`{2017, 13}` fail while `{2015, 1}` succeeds. -/
theorem C6_validateDate_bounds :
    (∀ y m : Int,
      validateDate { year := .num y, month := .num m }
          = .error (.validationFailed invalidDateMsg)
        ↔ (y < 2015 ∨ m < 1 ∨ 12 < m))
    ∧ validateDate { year := .num 2014, month := .num 6 }
        = .error (.validationFailed invalidDateMsg)
    ∧ validateDate { year := .num 2017, month := .num 0 }
        = .error (.validationFailed invalidDateMsg)
    ∧ validateDate { year := .num 2017, month := .num 13 }
        = .error (.validationFailed invalidDateMsg)
    ∧ validateDate { year := .num 2015, month := .num 1 } = .ok () := by
  refine ⟨fun y m => ?_, by decide, by decide, by decide, by decide⟩
  by_cases h1 : y < 2015 <;> by_cases h2 : m < 1 <;> by_cases h3 : 12 < m <;>
    simp [validateDate, jsLt, jsGt, jsToNumber, h1, h2, h3]

/-- C10: there is an invoice slug whose first four characters are all
non-digits (here `"abcd11.host.from"`) that `parseInvoiceSlug` nevertheless
accepts, returning the non-numeric string `"abcd"` as the year (a `NaN`
comparison is never `< 2015`), and both resulting date objects also pass
`validateDate`. (For the spec's illustrative slug `"abcd12.host.from"` the
parse equally succeeds with year `"abcd"`, but its `dateTo` month `"13"` is
then caught by the independent December month-overflow, so a month below 12
exhibits the full leak.) -/
theorem C10_nan_year_passes_validation :
    ∃ slug : String,
      (∀ c ∈ (jsSubstr slug 0 4).data, ¬ c.isDigit)
      ∧ ∃ out, parseInvoiceSlug slug = .ok out
          ∧ out.dateFrom.year = .str (jsSubstr slug 0 4)
          ∧ jsSubstr slug 0 4 = "abcd"
          ∧ validateDate out.dateFrom = .ok ()
          ∧ validateDate out.dateTo = .ok () := by
  refine ⟨"abcd11.host.from", by decide,
    ⟨{ dateFrom := { year := .str "abcd", month := .str "11" },
       dateTo := { year := .str "abcd", month := .str "12" },
       collectiveSlug := "host", fromCollectiveSlug := "from" },
     by decide, by decide, by decide, by decide, by decide⟩⟩

/-- In a string of the shape `l1 ++ "." ++ l2` where `l2` is dot-free, the
last dot sits at index `l1.length`. -/
theorem jsLastIndexOf_last_dot (l1 l2 : List Char) (h : ∀ c ∈ l2, c ≠ '.') :
    jsLastIndexOf ⟨l1 ++ '.' :: l2⟩ '.' = (l1.length : Int) := by
  have hrev : (l1 ++ '.' :: l2).reverse = l2.reverse ++ '.' :: l1.reverse := by
    simp [List.reverse_append]
  have hnone : l2.reverse.findIdx? (fun x => x == '.') = none := by
    rw [List.findIdx?_eq_none_iff]
    intro x hx
    simpa using h x (List.mem_reverse.mp hx)
  unfold jsLastIndexOf
  simp only [hrev, List.findIdx?_append, hnone, Option.none_or]
  simp
  omega

/-- `substr` starting at the length of a leading block extracts the middle
block. -/
theorem jsSubstr_middle (A B C : List Char) :
    jsSubstr ⟨A ++ (B ++ C)⟩ (A.length : Int) B.length = ⟨B⟩ := by
  simp only [jsSubstr]
  rw [if_neg (by omega)]
  rw [show ((A.length : Int).toNat) = A.length from by omega]
  rw [List.drop_left, List.take_left]

/-- `substr` without a length argument starting at the length of a leading
block extracts the trailing block. -/
theorem jsSubstrToEnd_suffix (P F : List Char) :
    jsSubstrToEnd ⟨P ++ F⟩ (P.length : Int) = ⟨F⟩ := by
  simp only [jsSubstrToEnd]
  rw [if_neg (by omega)]
  rw [show ((P.length : Int).toNat) = P.length from by omega]
  rw [List.drop_left]

/-- `substring` between the length of a leading block and the end of the
middle block extracts the middle block. -/
theorem jsSubstring_middle (A B C : List Char) :
    jsSubstring ⟨(A ++ B) ++ C⟩ (A.length : Int) ((A.length : Int) + B.length) = ⟨B⟩ := by
  simp only [jsSubstring]
  have hlen : ((A ++ B) ++ C).length = A.length + B.length + C.length := by
    simp [Nat.add_assoc]
  rw [show (max (A.length : Int) 0).toNat = A.length from by omega]
  rw [show (max ((A.length : Int) + B.length) 0).toNat = A.length + B.length from by omega]
  rw [hlen]
  rw [show min A.length (A.length + B.length + C.length) = A.length from by omega]
  rw [show min (A.length + B.length) (A.length + B.length + C.length) = A.length + B.length from by omega]
  rw [show max A.length (A.length + B.length) = A.length + B.length from by omega]
  rw [show min A.length (A.length + B.length) = A.length from by omega]
  rw [List.take_left' (by simp : (A ++ B).length = A.length + B.length), List.drop_left]

/-- Counterexample to C2 as stated: the slug built from year `"2015"`, month
`"01"`, host `"h"` and from-slug `"a.b"` (which contains a dot) is accepted by
`parseInvoiceSlug` but does not round-trip — the last-dot split returns
`collectiveSlug = "h.a"` and `fromCollectiveSlug = "b"` instead of `"h"` and
`"a.b"`. -/
theorem C2_roundtrip_counterexample :
    parseInvoiceSlug ("2015" ++ "01" ++ "." ++ "h" ++ "." ++ "a.b")
      = .ok { dateFrom := { year := .str "2015", month := .str "01" },
              dateTo := { year := .str "2015", month := .str "2" },
              collectiveSlug := "h.a", fromCollectiveSlug := "b" }
    ∧ ("b" : String) ≠ "a.b" ∧ ("h.a" : String) ≠ "h" :=
  ⟨by decide, by decide, by decide⟩

/-- C2 (amended): for every invoice slug `YYYYMM.host.from` built from a
4-digit year string of numeric value at least 2015, a 2-digit zero-padded
month string of numeric value in 1..12, a non-empty host slug, and a from-slug
containing no `.` — the dot restriction being forced by the last-dot split —
`parseInvoiceSlug` succeeds and returns exactly the year, month, host and from
components used to construct it. -/
theorem C2_roundtrip_amended (ys ms host fro : String)
    (hy4 : ys.data.length = 4) (hyd : ys.data.all Char.isDigit = true)
    (hy2015 : 2015 ≤ digitsToNat ys)
    (hm2 : ms.data.length = 2) (hmd : ms.data.all Char.isDigit = true)
    (hm1 : 1 ≤ digitsToNat ms) (hm12 : digitsToNat ms ≤ 12)
    (hhost : host ≠ "") (hfro : ∀ c ∈ fro.data, c ≠ '.') :
    parseInvoiceSlug (ys ++ ms ++ "." ++ host ++ "." ++ fro)
      = .ok { dateFrom := { year := .str ys, month := .str ms },
              dateTo := { year := .str ys, month := .str (jsStrSucc ms) },
              collectiveSlug := host, fromCollectiveSlug := fro } := by
  have hs : (ys ++ ms ++ "." ++ host ++ "." ++ fro)
      = ⟨ys.data ++ (ms.data ++ ('.' :: (host.data ++ ('.' :: fro.data))))⟩ := by
    apply String.ext
    simp only [String.data_append]
    simp [List.append_assoc]
  have hysne : ys ≠ "" := by
    intro h
    rw [h] at hy4
    simp at hy4
  have hmsne : ms ≠ "" := by
    intro h
    rw [h] at hm2
    simp at hm2
  have hnumY : jsStringToNumber ys = some ((digitsToNat ys : Int)) := by
    simp [jsStringToNumber, hysne, hyd]
  have hnumM : jsStringToNumber ms = some ((digitsToNat ms : Int)) := by
    simp [jsStringToNumber, hmsne, hmd]
  have hltY : jsLt (.str ys) 2015 = false := by
    simp only [jsLt, jsToNumber, hnumY, decide_eq_false_iff_not, not_lt]
    exact_mod_cast hy2015
  have hltM : jsLt (.str ms) 1 = false := by
    simp only [jsLt, jsToNumber, hnumM, decide_eq_false_iff_not, not_lt]
    exact_mod_cast hm1
  have hgtM : jsGt (.str ms) 12 = false := by
    simp only [jsGt, jsToNumber, hnumM, decide_eq_false_iff_not, not_lt]
    exact_mod_cast hm12
  have hyear : jsSubstr ⟨ys.data ++ (ms.data ++ ('.' :: (host.data ++ ('.' :: fro.data))))⟩ 0 4
      = ys := by
    have h := jsSubstr_middle [] ys.data (ms.data ++ ('.' :: (host.data ++ ('.' :: fro.data))))
    simp only [List.nil_append, List.length_nil, Nat.cast_zero] at h
    rw [hy4] at h
    exact h
  have hmonth : jsSubstr ⟨ys.data ++ (ms.data ++ ('.' :: (host.data ++ ('.' :: fro.data))))⟩ 4 2
      = ms := by
    have h := jsSubstr_middle ys.data ms.data ('.' :: (host.data ++ ('.' :: fro.data)))
    rw [hy4, hm2] at h
    exact_mod_cast h
  have hstr2 : (⟨ys.data ++ (ms.data ++ ('.' :: (host.data ++ ('.' :: fro.data))))⟩ : String)
      = ⟨(ys.data ++ (ms.data ++ ('.' :: host.data))) ++ '.' :: fro.data⟩ := by
    apply String.ext
    simp [List.append_assoc]
  have hlast : jsLastIndexOf
        ⟨ys.data ++ (ms.data ++ ('.' :: (host.data ++ ('.' :: fro.data))))⟩ '.'
      = ((ys.data ++ (ms.data ++ ('.' :: host.data))).length : Int) := by
    rw [hstr2]
    exact jsLastIndexOf_last_dot _ _ hfro
  have hlastv : (ys.data ++ (ms.data ++ ('.' :: host.data))).length = 7 + host.data.length := by
    simp [hy4, hm2]
    omega
  have hcs : jsSubstring ⟨ys.data ++ (ms.data ++ ('.' :: (host.data ++ ('.' :: fro.data))))⟩ 7
      (jsLastIndexOf ⟨ys.data ++ (ms.data ++ ('.' :: (host.data ++ ('.' :: fro.data))))⟩ '.')
      = host := by
    rw [hlast, hlastv]
    have h := jsSubstring_middle ((ys.data ++ ms.data) ++ ['.']) host.data ('.' :: fro.data)
    have hA : ((ys.data ++ ms.data) ++ ['.']).length = 7 := by
      simp [hy4, hm2]
    rw [hA] at h
    have hstr3 : (⟨ys.data ++ (ms.data ++ ('.' :: (host.data ++ ('.' :: fro.data))))⟩ : String)
        = ⟨(((ys.data ++ ms.data) ++ ['.']) ++ host.data) ++ ('.' :: fro.data)⟩ := by
      apply String.ext
      simp [List.append_assoc]
    rw [hstr3]
    have hc : ((7 + host.data.length : Nat) : Int) = (7 : Int) + (host.data.length : Int) := by
      push_cast
      ring
    rw [hc]
    exact_mod_cast h
  have hfcs : jsSubstrToEnd ⟨ys.data ++ (ms.data ++ ('.' :: (host.data ++ ('.' :: fro.data))))⟩
      (jsLastIndexOf ⟨ys.data ++ (ms.data ++ ('.' :: (host.data ++ ('.' :: fro.data))))⟩ '.' + 1)
      = fro := by
    rw [hlast, hlastv]
    have h := jsSubstrToEnd_suffix ((ys.data ++ (ms.data ++ ('.' :: host.data))) ++ ['.']) fro.data
    have hP : ((ys.data ++ (ms.data ++ ('.' :: host.data))) ++ ['.']).length
        = 8 + host.data.length := by
      simp [hy4, hm2]
      omega
    rw [hP] at h
    have hstr4 : (⟨ys.data ++ (ms.data ++ ('.' :: (host.data ++ ('.' :: fro.data))))⟩ : String)
        = ⟨((ys.data ++ (ms.data ++ ('.' :: host.data))) ++ ['.']) ++ fro.data⟩ := by
      apply String.ext
      simp [List.append_assoc]
    rw [hstr4]
    have hc : ((7 + host.data.length : Nat) : Int) + 1 = ((8 + host.data.length : Nat) : Int) := by
      push_cast
      ring
    rw [hc]
    exact h
  rw [hs]
  simp only [parseInvoiceSlug]
  rw [hyear, hmonth, hcs, hfcs]
  have hostne : (host == "") = false := beq_eq_false_iff_ne.mpr hhost
  rw [hostne, hltY, hltM, hgtM]
  simp

/-- Witness for C2 (amended): the slug `"201709.hosty.alice"` round-trips. -/
theorem C2_roundtrip_amended_witness :
    parseInvoiceSlug ("2017" ++ "09" ++ "." ++ "hosty" ++ "." ++ "alice")
      = .ok { dateFrom := { year := .str "2017", month := .str "09" },
              dateTo := { year := .str "2017", month := .str (jsStrSucc "09") },
              collectiveSlug := "hosty", fromCollectiveSlug := "alice" } :=
  C2_roundtrip_amended "2017" "09" "hosty" "alice"
    (by decide) (by decide) (by decide) (by decide) (by decide) (by decide) (by decide)
    (by decide) (by decide)

/-- C5: past date validation, collective resolution and the admin check, the
`Invoice` resolver fails with the `ValidationError` "Invalid date object.
dateFrom must be before dateTo" exactly when `endsAt` is strictly before
`startsAt`; in particular equal `dateFrom` and `dateTo` pass this
validation. -/
theorem C5_date_order_iff (db : Database) (u : RemoteUser)
    (input : InvoiceInput) (fromCollective host : Collective)
    (hvf : validateDate input.dateFrom = .ok ())
    (hvt : validateDate input.dateTo = .ok ())
    (hfc : findCollectiveBySlug db input.fromCollectiveSlug = some fromCollective)
    (hh : findCollectiveBySlug db input.collectiveSlug = some host)
    (hadmin : u.isAdmin fromCollective.id = true) :
    (invoiceResolver db (some u) (.byInput input) = .error (.validationFailed dateOrderMsg)
      ↔ jsDateLtOpt (rangeEndsAt input) (rangeStartsAt input) = true)
    ∧ (input.dateFrom = input.dateTo →
        invoiceResolver db (some u) (.byInput input) ≠ .error (.validationFailed dateOrderMsg)) := by
  have hred := invoiceResolver_pastValidation db u input fromCollective host hvf hvt hfc hh hadmin
  constructor
  · rw [hred]
    cases hlt : jsDateLtOpt (rangeEndsAt input) (rangeStartsAt input)
    · by_cases he : (rangeTransactions db fromCollective host input).isEmpty <;>
        simp [hlt, he, QueryError.notFound, dateOrderMsg]
    · simp [hlt]
  · intro heq
    rw [hred]
    have hsame : rangeEndsAt input = rangeStartsAt input := by
      rw [rangeEndsAt, rangeStartsAt, heq]
    rw [hsame, jsDateLtOpt_irrefl]
    by_cases he : (rangeTransactions db fromCollective host input).isEmpty <;>
      simp [he, dateOrderMsg]

/-- Witness for C5: on the fixture database with `dateFrom = dateTo =
October 2017` the date-order validation passes (and the error is not the
date-order one). -/
theorem C5_date_order_iff_witness :
    (invoiceResolver dbFx (some adminFx) (.byInput inputFxEq)
        = .error (.validationFailed dateOrderMsg)
      ↔ jsDateLtOpt (rangeEndsAt inputFxEq) (rangeStartsAt inputFxEq) = true)
    ∧ (inputFxEq.dateFrom = inputFxEq.dateTo →
        invoiceResolver dbFx (some adminFx) (.byInput inputFxEq)
          ≠ .error (.validationFailed dateOrderMsg)) :=
  C5_date_order_iff dbFx adminFx inputFxEq payerFx hostFx
    (by decide) (by decide) (by decide) (by decide) (by decide)

/-- C4: past date validation, collective resolution, the admin check and the
date-order check, the `Invoice` resolver fails with `NotFoundError` when the
fetch returns zero transactions, and otherwise returns exactly one invoice
whose `totalAmount` is the sum of `amountInHostCurrency` over the fetched
transactions, whose `currency` is the (uniform, nonempty) `hostCurrency` of
the fetched transactions — the `host.currency` fallback not firing — and whose
`title` is `host.settings.invoiceTitle` or the default `"Donation Receipt"`. -/
theorem C4_range_invoice_spec (db : Database) (u : RemoteUser)
    (input : InvoiceInput) (fromCollective host : Collective)
    (hvf : validateDate input.dateFrom = .ok ())
    (hvt : validateDate input.dateTo = .ok ())
    (hfc : findCollectiveBySlug db input.fromCollectiveSlug = some fromCollective)
    (hh : findCollectiveBySlug db input.collectiveSlug = some host)
    (hadmin : u.isAdmin fromCollective.id = true)
    (hlt : jsDateLtOpt (rangeEndsAt input) (rangeStartsAt input) = false) :
    (rangeTransactions db fromCollective host input = [] →
      invoiceResolver db (some u) (.byInput input) = .error (.notFound "No transactions found"))
    ∧ (rangeTransactions db fromCollective host input ≠ [] →
        ∃ inv, invoiceResolver db (some u) (.byInput input) = .ok inv
          ∧ inv.totalAmount = ((rangeTransactions db fromCollective host input).map
              (fun t => t.amountInHostCurrency)).sum
          ∧ (∀ c, c ≠ "" →
              (∀ t ∈ rangeTransactions db fromCollective host input, t.hostCurrency = c) →
              inv.currency = c)
          ∧ inv.title = (match host.invoiceTitle with
              | some s => if s = "" then "Donation Receipt" else s
              | none => "Donation Receipt")) := by
  have hred := invoiceResolver_pastValidation db u input fromCollective host hvf hvt hfc hh hadmin
  rw [hred, hlt]
  constructor
  · intro hnil
    simp [hnil]
  · intro hne
    have hemp : (rangeTransactions db fromCollective host input).isEmpty = false := by
      simpa [List.isEmpty_iff] using hne
    simp only [hemp, Bool.false_eq_true, if_false]
    refine ⟨_, rfl, ?_, ?_, ?_⟩
    · simpa using foldl_add_amount (rangeTransactions db fromCollective host input) 0
    · intro c hc hall
      have hlast : lastHostCurrency (rangeTransactions db fromCollective host input) = some c :=
        foldl_lastCurrency c _ none hne hall
      simp [jsOrDefault, hlast, hc]
    · cases ht : host.invoiceTitle with
      | none => simp [jsOrDefault, ht]
      | some s =>
        by_cases hs : s = "" <;> simp [jsOrDefault, ht, hs]

/-- Witness for C4: on the fixture database, the October 2017 range invoice
for the payer holds the two October transactions, `totalAmount = 1500`,
currency `"EUR"` and the default title. -/
theorem C4_range_invoice_spec_witness :
    rangeTransactions dbFx payerFx hostFx inputFxOct ≠ []
    ∧ (∃ inv, invoiceResolver dbFx (some adminFx) (.byInput inputFxOct) = .ok inv
        ∧ inv.totalAmount = ((rangeTransactions dbFx payerFx hostFx inputFxOct).map
            (fun t => t.amountInHostCurrency)).sum
        ∧ (∀ c, c ≠ "" →
            (∀ t ∈ rangeTransactions dbFx payerFx hostFx inputFxOct, t.hostCurrency = c) →
            inv.currency = c)
        ∧ inv.title = (match hostFx.invoiceTitle with
            | some s => if s = "" then "Donation Receipt" else s
            | none => "Donation Receipt")) :=
  ⟨by decide,
   (C4_range_invoice_spec dbFx adminFx inputFxOct payerFx hostFx
      (by decide) (by decide) (by decide) (by decide) (by decide) (by decide)).2 (by decide)⟩

/-- C3: for every slug accepted by `parseInvoiceSlug` whose month component is
`"12"`, the `Invoice` query with that `invoiceSlug` fails with the
`validateDate` `ValidationError`, for every database and caller:
`dateTo.month` becomes `"13"` (month + 1 with no year rollover) and
`validateDate dateTo` rejects it, so no December invoice is ever fetchable
through the slug form. -/
theorem C3_december_slug_fails (db : Database) (u : Option RemoteUser)
    (slug : String) (input : InvoiceInput)
    (hparse : parseInvoiceSlug slug = .ok input)
    (hmonth : jsSubstr slug 4 2 = "12") :
    invoiceResolver db u (.bySlug slug) = .error (.validationFailed invalidDateMsg) := by
  have hp := hparse
  simp only [parseInvoiceSlug, hmonth] at hp
  split at hp
  · exact absurd hp (by simp)
  · rename_i hcond
    rw [Bool.not_eq_true, Bool.or_eq_false_iff, Bool.or_eq_false_iff] at hcond
    obtain ⟨⟨-, hyear⟩, -⟩ := hcond
    rw [Except.ok.injEq] at hp
    subst hp
    have h13 : jsStrSucc "12" = "13" := by decide
    have hl12 : jsLt (JsVal.str "12") 1 = false := by decide
    have hg12 : jsGt (JsVal.str "12") 12 = false := by decide
    have hl13 : jsLt (JsVal.str "13") 1 = false := by decide
    have hg13 : jsGt (JsVal.str "13") 12 = true := by decide
    have hva : validateDate { year := .str (jsSubstr slug 0 4), month := .str "12" }
        = .ok () := by
      simp [validateDate, hyear, hl12, hg12]
    have hvb : validateDate { year := .str (jsSubstr slug 0 4), month := .str (jsStrSucc "12") }
        = .error (.validationFailed invalidDateMsg) := by
      rw [h13]
      simp [validateDate, hyear, hl13, hg13]
    simp only [invoiceResolver, hparse, hva, hvb]

/-- Witness for C3: the December 2015 slug for the fixture host and payer is
rejected with the `validateDate` `ValidationError` even though everything else
about the request is well-formed. -/
theorem C3_december_slug_fails_witness :
    invoiceResolver dbFx (some adminFx) (.bySlug "201512.hosty.alice")
      = .error (.validationFailed invalidDateMsg) :=
  C3_december_slug_fails dbFx (some adminFx) "201512.hosty.alice"
    { dateFrom := { year := .str "2015", month := .str "12" },
      dateTo := { year := .str "2015", month := .str "13" },
      collectiveSlug := "hosty", fromCollectiveSlug := "alice" }
    (by decide) (by decide)

/-- Counterexample to C7 as stated: in a request to the date-range `Invoice`
query whose billed `fromCollective` (`"alice"`) resolves successfully and
whose caller is unauthenticated, the resolver fails with
`NotFoundError "Host not found"` — not with an `UnauthorizedError` — because
the host slug resolves to nothing and the host lookup precedes the admin
check. -/
theorem C7_counterexample :
    (findCollectiveBySlug dbFx "alice").isSome = true
    ∧ inputFxMissingHost.fromCollectiveSlug = "alice"
    ∧ invoiceResolver dbFx none (.byInput inputFxMissingHost)
        = .error (.notFound "Host not found")
    ∧ ∀ msg, invoiceResolver dbFx none (.byInput inputFxMissingHost)
        ≠ .error (.unauthorized msg) := by
  refine ⟨by decide, by decide, by decide, ?_⟩
  intro msg h
  have heval : invoiceResolver dbFx none (.byInput inputFxMissingHost)
      = .error (.notFound "Host not found") := by decide
  rw [heval] at h
  exact absurd h (by simp)

/-- C7 (amended): whenever the billed `fromCollective` resolves and the caller
is unauthenticated or not an admin of it, `allInvoices` fails with the
`UnauthorizedError` whose message contains "don't have permission", whatever
the transaction store holds; the date-range `Invoice` query does the same
provided additionally both dates validate and the host collective also
resolves (its host lookup precedes the admin check). -/
theorem C7_amended_unauthorized :
    (∀ (db : Database) (u : Option RemoteUser) (fcSlug : String) (fc : Collective),
      findCollectiveBySlug db fcSlug = some fc →
      (u = none ∨ ∃ ru, u = some ru ∧ ru.isAdmin fc.id = false) →
      allInvoices db u fcSlug = .error (.unauthorized unauthorizedInvoicesMsg))
    ∧ (∀ (db : Database) (u : Option RemoteUser) (input : InvoiceInput)
        (fc host : Collective),
      validateDate input.dateFrom = .ok () →
      validateDate input.dateTo = .ok () →
      findCollectiveBySlug db input.fromCollectiveSlug = some fc →
      findCollectiveBySlug db input.collectiveSlug = some host →
      (u = none ∨ ∃ ru, u = some ru ∧ ru.isAdmin fc.id = false) →
      invoiceResolver db u (.byInput input) = .error (.unauthorized unauthorizedInvoicesMsg))
    ∧ ∃ pre post, unauthorizedInvoicesMsg = pre ++ "don't have permission" ++ post := by
  refine ⟨?_, ?_, "You ", " to access invoices for this user", by decide⟩
  · intro db u fcSlug fc hfc hu
    rcases hu with rfl | ⟨ru, rfl, hadm⟩
    · simp [allInvoices, hfc]
    · simp [allInvoices, hfc, hadm]
  · intro db u input fc host hvf hvt hfc hh hu
    rcases hu with rfl | ⟨ru, rfl, hadm⟩
    · simp [invoiceResolver, hvf, hvt, hfc, hh]
    · simp [invoiceResolver, hvf, hvt, hfc, hh, hadm]

/-- Witness for C7 (amended): concretely, the unauthenticated caller is turned
away from both queries on the fixture database. -/
theorem C7_amended_unauthorized_witness :
    allInvoices dbFx none "alice" = .error (.unauthorized unauthorizedInvoicesMsg)
    ∧ invoiceResolver dbFx none (.byInput inputFxEq)
        = .error (.unauthorized unauthorizedInvoicesMsg) :=
  ⟨C7_amended_unauthorized.1 dbFx none "alice" payerFx (by decide) (Or.inl rfl),
   C7_amended_unauthorized.2.1 dbFx none inputFxEq payerFx hostFx
     (by decide) (by decide) (by decide) (by decide) (Or.inl rfl)⟩

/-- C8: `TransactionInvoice` on a uuid with no matching transaction fails with
`NotFoundError`; on a matching transaction it returns one invoice whose
`totalAmount` is `amount` for a CREDIT and `-1 * netAmountInCollectiveCurrency`
otherwise, whose `slug` is `"transaction-" ++ uuid`, and whose transaction list
is exactly that transaction. -/
theorem C8_transactionInvoice_spec (db : Database) (transactionUuid : String) :
    (db.transactions.find? (fun t => t.uuid == transactionUuid) = none →
      transactionInvoice db transactionUuid
        = .error (.notFound ("Transaction " ++ transactionUuid ++ " doesn't exists")))
    ∧ ∀ t, db.transactions.find? (fun t2 => t2.uuid == transactionUuid) = some t →
        ∃ inv, transactionInvoice db transactionUuid = .ok inv
          ∧ inv.totalAmount
              = (if t.type = "CREDIT" then t.amount else -1 * t.netAmountInCollectiveCurrency)
          ∧ inv.slug = "transaction-" ++ transactionUuid
          ∧ inv.transactions = [t] := by
  constructor
  · intro hnone
    simp [transactionInvoice, hnone]
  · intro t hfind
    simp only [transactionInvoice, hfind]
    refine ⟨_, rfl, ?_, rfl, rfl⟩
    by_cases hc : t.type = "CREDIT" <;> simp [hc]

/-- Witness for C8: in the fixture database, the DEBIT transaction with
`netAmountInCollectiveCurrency = -800` yields an invoice with
`totalAmount = 800`, slug `"transaction-tx-debit"` and exactly that
transaction. -/
theorem C8_transactionInvoice_witness :
    ∃ inv, transactionInvoice dbFx "tx-debit" = .ok inv
      ∧ inv.totalAmount = (if debitTxFx.type = "CREDIT" then debitTxFx.amount
          else -1 * debitTxFx.netAmountInCollectiveCurrency)
      ∧ inv.slug = "transaction-" ++ "tx-debit"
      ∧ inv.transactions = [debitTxFx] :=
  (C8_transactionInvoice_spec dbFx "tx-debit").2 debitTxFx (by decide)

/-- The sort relation coincides with the descending slug order of the
ambient linear order on `String`. -/
theorem slugDesc_iff_le (a b : MonthlyInvoice) : slugDesc a b ↔ b.slug ≤ a.slug := by
  unfold slugDesc
  rw [List.lt_iff_lex_lt]
  show ¬ (a.slug.toList < b.slug.toList) ↔ b.slug ≤ a.slug
  rw [← String.lt_iff_toList_lt]
  exact not_lt

/-- The fuel argument of `natDigitsAux` is irrelevant once it exceeds the
number being rendered. -/
theorem natDigitsAux_irrel : ∀ (f1 : Nat), ∀ n, n < f1 → ∀ f2, n < f2 →
    natDigitsAux f1 n = natDigitsAux f2 n := by
  intro f1
  induction f1 with
  | zero => intro n hn; omega
  | succ f1 ih =>
    intro n hn f2 hf2
    cases f2 with
    | zero => omega
    | succ f2 =>
      show natDigitsAux (f1 + 1) n = natDigitsAux (f2 + 1) n
      rw [natDigitsAux, natDigitsAux]
      by_cases h : n < 10
      · simp [h]
      · simp only [if_neg h]
        have hd : n / 10 < n := Nat.div_lt_self (by omega) (by omega)
        rw [ih (n / 10) (by omega) f2 (by omega)]

/-- One-step unfolding of `natDigits`. -/
theorem natDigits_unfold (n : Nat) :
    natDigits n = if n < 10 then [Nat.digitChar n]
      else natDigits (n / 10) ++ [Nat.digitChar (n % 10)] := by
  show natDigitsAux (n + 1) n = _
  rw [natDigitsAux]
  by_cases h : n < 10
  · simp [h]
  · simp only [if_neg h]
    have hd : n / 10 < n := Nat.div_lt_self (by omega) (by omega)
    rw [natDigitsAux_irrel n (n / 10) (by omega) (n / 10 + 1) (by omega)]
    rfl

/-- The digit character of a digit has the expected code-point offset. -/
theorem digitChar_toNat_sub (d : Nat) (h : d < 10) : (Nat.digitChar d).toNat - 48 = d := by
  interval_cases d <;> rfl

/-- Folding the decimal value over `natDigits n` recovers `n`. -/
theorem natDigits_val (n : Nat) :
    (natDigits n).foldl (fun a c => a * 10 + (c.toNat - 48)) 0 = n := by
  induction n using Nat.strong_induction_on with
  | _ n ih =>
    rw [natDigits_unfold]
    by_cases h : n < 10
    · simp [h, digitChar_toNat_sub n h]
    · rw [if_neg h, List.foldl_append]
      have hd : n / 10 < n := Nat.div_lt_self (by omega) (by omega)
      rw [ih (n / 10) hd]
      simp only [List.foldl_cons, List.foldl_nil]
      rw [digitChar_toNat_sub (n % 10) (by omega)]
      omega

/-- Decimal rendering is injective. -/
theorem natDigits_inj {a b : Nat} (h : natDigits a = natDigits b) : a = b := by
  have ha := natDigits_val a
  rw [h, natDigits_val b] at ha
  omega

/-- A number below 10 renders as one digit. -/
theorem natDigits_length_one (n : Nat) (h : n < 10) : (natDigits n).length = 1 := by
  rw [natDigits_unfold, if_pos h]
  rfl

/-- A number in `[10, 99]` renders as two digits. -/
theorem natDigits_length_two (n : Nat) (h1 : 10 ≤ n) (h2 : n ≤ 99) :
    (natDigits n).length = 2 := by
  rw [natDigits_unfold, if_neg (by omega)]
  rw [List.length_append, natDigits_length_one (n / 10) (by omega)]
  rfl

/-- A number in `[100, 999]` renders as three digits. -/
theorem natDigits_length_three (n : Nat) (h1 : 100 ≤ n) (h2 : n ≤ 999) :
    (natDigits n).length = 3 := by
  rw [natDigits_unfold, if_neg (by omega)]
  rw [List.length_append, natDigits_length_two (n / 10) (by omega) (by omega)]
  rfl

/-- A number in `[1000, 9999]` renders as four digits. -/
theorem natDigits_length_four (n : Nat) (h1 : 1000 ≤ n) (h2 : n ≤ 9999) :
    (natDigits n).length = 4 := by
  rw [natDigits_unfold, if_neg (by omega)]
  rw [List.length_append, natDigits_length_three (n / 10) (by omega) (by omega)]
  rfl

/-- A month in `[1, 12]` always renders as exactly two characters. -/
theorem month2digit_data_length (m : Nat) (h1 : 1 ≤ m) (h2 : m ≤ 12) :
    (month2digit m).data.length = 2 := by
  rw [month2digit]
  by_cases h : m < 10
  · rw [if_pos h]
    show ('0' :: natDigits m).length = 2
    rw [List.length_cons, natDigits_length_one m h]
  · rw [if_neg h]
    show (natDigits m).length = 2
    exact natDigits_length_two m (by omega) (by omega)

/-- The two-digit month rendering is injective on `[1, 12]`. -/
theorem month2digit_inj (m1 m2 : Nat) (h1a : 1 ≤ m1) (h1b : m1 ≤ 12)
    (h2a : 1 ≤ m2) (h2b : m2 ≤ 12) (heq : month2digit m1 = month2digit m2) :
    m1 = m2 := by
  revert heq
  interval_cases m1 <;> interval_cases m2 <;> decide

/-- Two monthly grouping keys built from in-range years and months and a
shared trailing payer slug agree only when all their components agree. -/
theorem monthlyKey_components_inj (y1 y2 m1 m2 : Nat) (h1 h2 tail : String)
    (hy1a : 1000 ≤ y1) (hy1b : y1 ≤ 9999) (hy2a : 1000 ≤ y2) (hy2b : y2 ≤ 9999)
    (hm1a : 1 ≤ m1) (hm1b : m1 ≤ 12) (hm2a : 1 ≤ m2) (hm2b : m2 ≤ 12)
    (heq : renderNat y1 ++ month2digit m1 ++ "." ++ h1 ++ "." ++ tail
         = renderNat y2 ++ month2digit m2 ++ "." ++ h2 ++ "." ++ tail) :
    y1 = y2 ∧ m1 = m2 ∧ h1 = h2 := by
  have e1 : natDigits y1 ++ ((month2digit m1).data ++ ('.' :: (h1.data ++ ('.' :: tail.data))))
      = natDigits y2 ++ ((month2digit m2).data ++ ('.' :: (h2.data ++ ('.' :: tail.data)))) := by
    have hd := congrArg String.data heq
    simpa [List.append_assoc] using hd
  obtain ⟨ey, e2⟩ := List.append_inj e1
    (by rw [natDigits_length_four y1 hy1a hy1b, natDigits_length_four y2 hy2a hy2b])
  obtain ⟨em, e3⟩ := List.append_inj e2
    (by rw [month2digit_data_length m1 hm1a hm1b, month2digit_data_length m2 hm2a hm2b])
  injection e3 with _ e4
  have hlen : h1.data.length = h2.data.length := by
    have hL := congrArg List.length e4
    rw [List.length_append, List.length_append] at hL
    simp only [List.length_cons] at hL
    omega
  obtain ⟨eh, -⟩ := List.append_inj e4 hlen
  exact ⟨natDigits_inj ey, month2digit_inj m1 m2 hm1a hm1b hm2a hm2b (String.ext em),
    String.ext eh⟩

/-- When every transaction's host collective exists, the effectful
`invoicesByKey` accumulation never crashes and agrees with the pure fold. -/
theorem foldlM_upsert_ok (db : Database) (fc : Collective) :
    ∀ (ts : List Transaction) (acc : List MonthlyInvoice),
      (∀ t ∈ ts, (findCollectiveById db t.HostCollectiveId).isSome) →
      List.foldlM (upsertInvoiceM db fc) acc ts
        = .ok (List.foldl (upsertInvoice (hostSlugInDb db) fc) acc ts) := by
  intro ts
  induction ts with
  | nil =>
    intro acc _
    rfl
  | cons t rest ih =>
    intro acc h
    have ht := h t (by simp)
    rcases hfind : findCollectiveById db t.HostCollectiveId with _ | c
    · rw [hfind] at ht
      simp at ht
    · rw [List.foldlM_cons]
      rw [show upsertInvoiceM db fc acc t
          = .ok (upsertInvoice (hostSlugInDb db) fc acc t) from by
        simp [upsertInvoiceM, hfind]]
      rw [List.foldl_cons]
      exact ih (upsertInvoice (hostSlugInDb db) fc acc t) (fun x hx => h x (by simp [hx]))

/-- From the exact-count invariant, key membership in the accumulator matches
key membership among the processed transactions. -/
theorem upsert_any_eq (hs : Nat → String) (fc : Collective)
    (acc : List MonthlyInvoice) (proc : List Transaction)
    (hK : ∀ s : String, acc.countP (fun inv => inv.slug == s)
        = if proc.any (fun t2 => monthlyKey (hs t2.HostCollectiveId) fc.slug t2 == s)
          then 1 else 0) :
    ∀ s : String, acc.any (fun inv => inv.slug == s)
      = proc.any (fun t2 => monthlyKey (hs t2.HostCollectiveId) fc.slug t2 == s) := by
  intro s
  cases hp : proc.any (fun t2 => monthlyKey (hs t2.HostCollectiveId) fc.slug t2 == s)
  · have h0 := hK s
    rw [hp] at h0
    simp only [Bool.false_eq_true, if_false] at h0
    rw [List.countP_eq_zero] at h0
    rw [List.any_eq_false]
    exact fun inv hinv => h0 inv hinv
  · have h0 := hK s
    rw [hp, if_pos rfl] at h0
    have hpos : 0 < acc.countP (fun inv => inv.slug == s) := by omega
    rw [List.countP_pos_iff] at hpos
    rw [List.any_eq_true]
    exact hpos

/-- One `invoicesByKey` step preserves the exact-count invariant: each key
present among the processed transactions labels exactly one accumulated
invoice. -/
theorem upsertInvoice_step_count (hs : Nat → String) (fc : Collective)
    (acc : List MonthlyInvoice) (proc : List Transaction) (t : Transaction)
    (hK : ∀ s : String, acc.countP (fun inv => inv.slug == s)
        = if (proc.any fun t2 => monthlyKey (hs t2.HostCollectiveId) fc.slug t2 == s)
          then 1 else 0) :
    ∀ s : String, (upsertInvoice hs fc acc t).countP (fun inv => inv.slug == s)
      = if ((proc ++ [t]).any fun t2 => monthlyKey (hs t2.HostCollectiveId) fc.slug t2 == s)
        then 1 else 0 := by
  intro s
  have hAny := upsert_any_eq hs fc acc proc hK
  simp only [upsertInvoice]
  rw [List.any_append, List.any_cons, List.any_nil, Bool.or_false]
  by_cases hacc : acc.any (fun inv => inv.slug == monthlyKey (hs t.HostCollectiveId) fc.slug t)
      = true
  · rw [if_pos hacc]
    rw [List.countP_map]
    have hcongr : acc.countP
        ((fun inv => inv.slug == s) ∘ (fun inv =>
          if inv.slug == monthlyKey (hs t.HostCollectiveId) fc.slug t then
            { HostCollectiveId := t.HostCollectiveId, FromCollectiveId := fc.id,
              slug := monthlyKey (hs t.HostCollectiveId) fc.slug t,
              year := t.createdAt.year, month := t.createdAt.month,
              totalAmount := inv.totalAmount + t.amountInHostCurrency,
              currency := t.hostCurrency }
          else inv))
        = acc.countP (fun inv => inv.slug == s) := by
      apply List.countP_congr
      intro inv _
      by_cases hsl : (inv.slug == monthlyKey (hs t.HostCollectiveId) fc.slug t) = true
      · have heq2 : inv.slug = monthlyKey (hs t.HostCollectiveId) fc.slug t := by
          simpa using hsl
        simp [Function.comp, hsl, heq2]
      · simp only [Bool.not_eq_true] at hsl
        simp [Function.comp, hsl]
    rw [hcongr, hK s]
    cases hks : (monthlyKey (hs t.HostCollectiveId) fc.slug t == s)
    · simp [hks]
    · have hseq : monthlyKey (hs t.HostCollectiveId) fc.slug t = s := by simpa using hks
      have hpt : (proc.any fun t2 => monthlyKey (hs t2.HostCollectiveId) fc.slug t2 == s)
          = true := by
        rw [← hAny s, ← hseq]
        exact hacc
      simp [hpt]
  · simp only [Bool.not_eq_true] at hacc
    rw [if_neg (by simp [hacc])]
    rw [List.countP_append, hK s]
    have hsingle : List.countP (fun inv => inv.slug == s)
        [({ HostCollectiveId := t.HostCollectiveId, FromCollectiveId := fc.id,
            slug := monthlyKey (hs t.HostCollectiveId) fc.slug t,
            year := t.createdAt.year, month := t.createdAt.month,
            totalAmount := t.amountInHostCurrency,
            currency := t.hostCurrency } : MonthlyInvoice)]
        = if (monthlyKey (hs t.HostCollectiveId) fc.slug t == s) then 1 else 0 := by
      cases hks2 : (monthlyKey (hs t.HostCollectiveId) fc.slug t == s) <;>
        simp [List.countP_cons, hks2]
    rw [hsingle]
    cases hks : (monthlyKey (hs t.HostCollectiveId) fc.slug t == s)
    · simp [hks]
    · have hseq : monthlyKey (hs t.HostCollectiveId) fc.slug t = s := by simpa using hks
      have hpf : (proc.any fun t2 => monthlyKey (hs t2.HostCollectiveId) fc.slug t2 == s)
          = false := by
        rw [← hAny s, ← hseq]
        exact hacc
      simp [hpf, hks]

/-- One `invoicesByKey` step preserves the totals-and-fields invariant: each
accumulated invoice's total is the sum of `amountInHostCurrency` over the
processed transactions with its key, and its date and host fields come from
one of those transactions. -/
theorem upsertInvoice_step_total (hs : Nat → String) (fc : Collective)
    (acc : List MonthlyInvoice) (proc : List Transaction) (t : Transaction)
    (hK : ∀ s : String, acc.countP (fun inv => inv.slug == s)
        = if (proc.any fun t2 => monthlyKey (hs t2.HostCollectiveId) fc.slug t2 == s)
          then 1 else 0)
    (hT : ∀ inv ∈ acc,
        inv.totalAmount = (((proc.filter fun t2 =>
              monthlyKey (hs t2.HostCollectiveId) fc.slug t2 == inv.slug).map
            fun t2 => t2.amountInHostCurrency).sum)
        ∧ ∃ t2 ∈ proc, monthlyKey (hs t2.HostCollectiveId) fc.slug t2 = inv.slug
            ∧ inv.year = t2.createdAt.year ∧ inv.month = t2.createdAt.month
            ∧ inv.HostCollectiveId = t2.HostCollectiveId) :
    ∀ inv ∈ upsertInvoice hs fc acc t,
        inv.totalAmount = ((((proc ++ [t]).filter fun t2 =>
              monthlyKey (hs t2.HostCollectiveId) fc.slug t2 == inv.slug).map
            fun t2 => t2.amountInHostCurrency).sum)
        ∧ ∃ t2 ∈ proc ++ [t], monthlyKey (hs t2.HostCollectiveId) fc.slug t2 = inv.slug
            ∧ inv.year = t2.createdAt.year ∧ inv.month = t2.createdAt.month
            ∧ inv.HostCollectiveId = t2.HostCollectiveId := by
  intro inv hinv
  have hAny := upsert_any_eq hs fc acc proc hK
  simp only [upsertInvoice] at hinv
  by_cases hacc : acc.any (fun inv2 =>
      inv2.slug == monthlyKey (hs t.HostCollectiveId) fc.slug t) = true
  · rw [if_pos hacc] at hinv
    rw [List.mem_map] at hinv
    obtain ⟨inv0, hmem0, hphi⟩ := hinv
    by_cases hsl : (inv0.slug == monthlyKey (hs t.HostCollectiveId) fc.slug t) = true
    · rw [if_pos hsl] at hphi
      subst hphi
      have hk0 : inv0.slug = monthlyKey (hs t.HostCollectiveId) fc.slug t := by simpa using hsl
      obtain ⟨htot, -⟩ := hT inv0 hmem0
      refine ⟨?_, t, by simp, rfl, rfl, rfl, rfl⟩
      show inv0.totalAmount + t.amountInHostCurrency = _
      rw [List.filter_append, List.map_append, List.sum_append]
      have hft : List.filter (fun t2 => monthlyKey (hs t2.HostCollectiveId) fc.slug t2
          == monthlyKey (hs t.HostCollectiveId) fc.slug t) [t] = [t] := by
        simp
      show inv0.totalAmount + t.amountInHostCurrency
          = (((proc.filter fun t2 => monthlyKey (hs t2.HostCollectiveId) fc.slug t2
              == monthlyKey (hs t.HostCollectiveId) fc.slug t).map
            fun t2 => t2.amountInHostCurrency).sum)
          + ((List.filter (fun t2 => monthlyKey (hs t2.HostCollectiveId) fc.slug t2
              == monthlyKey (hs t.HostCollectiveId) fc.slug t) [t]).map
            fun t2 => t2.amountInHostCurrency).sum
      rw [hft, htot, hk0]
      simp
    · rw [if_neg hsl] at hphi
      subst hphi
      have hk0 : inv0.slug ≠ monthlyKey (hs t.HostCollectiveId) fc.slug t := by simpa using hsl
      obtain ⟨htot, t2, hmem2, hrest⟩ := hT inv0 hmem0
      refine ⟨?_, t2, List.mem_append_left _ hmem2, hrest⟩
      rw [List.filter_append, List.map_append, List.sum_append]
      have hft : List.filter (fun t2 => monthlyKey (hs t2.HostCollectiveId) fc.slug t2
          == inv0.slug) [t] = [] := by
        simp only [List.filter_eq_nil_iff]
        intro x hx
        rw [List.mem_singleton] at hx
        subst hx
        simp only [beq_iff_eq]
        exact fun h => hk0 h.symm
      rw [hft, htot]
      simp
  · simp only [Bool.not_eq_true] at hacc
    rw [if_neg (by simp [hacc])] at hinv
    rw [List.mem_append] at hinv
    rcases hinv with hmem0 | hnew
    · have hk0 : inv.slug ≠ monthlyKey (hs t.HostCollectiveId) fc.slug t := by
        have h2 := List.any_eq_false.mp hacc inv hmem0
        simpa using h2
      obtain ⟨htot, t2, hmem2, hrest⟩ := hT inv hmem0
      refine ⟨?_, t2, List.mem_append_left _ hmem2, hrest⟩
      rw [List.filter_append, List.map_append, List.sum_append]
      have hft : List.filter (fun t2 => monthlyKey (hs t2.HostCollectiveId) fc.slug t2
          == inv.slug) [t] = [] := by
        simp only [List.filter_eq_nil_iff]
        intro x hx
        rw [List.mem_singleton] at hx
        subst hx
        simp only [beq_iff_eq]
        exact fun h => hk0 h.symm
      rw [hft, htot]
      simp
    · rw [List.mem_singleton] at hnew
      subst hnew
      have hpf : (proc.any fun t2 =>
          monthlyKey (hs t2.HostCollectiveId) fc.slug t2
            == monthlyKey (hs t.HostCollectiveId) fc.slug t) = false := by
        rw [← hAny]
        exact hacc
      have hfilt : proc.filter (fun t2 => monthlyKey (hs t2.HostCollectiveId) fc.slug t2
          == monthlyKey (hs t.HostCollectiveId) fc.slug t) = [] := by
        simp only [List.filter_eq_nil_iff]
        intro x hx
        have h2 := List.any_eq_false.mp hpf x hx
        simpa using h2
      refine ⟨?_, t, by simp, rfl, rfl, rfl, rfl⟩
      show t.amountInHostCurrency = _
      rw [List.filter_append, List.map_append, List.sum_append]
      show t.amountInHostCurrency
          = (((proc.filter fun t2 => monthlyKey (hs t2.HostCollectiveId) fc.slug t2
              == monthlyKey (hs t.HostCollectiveId) fc.slug t).map
            fun t2 => t2.amountInHostCurrency).sum)
          + ((List.filter (fun t2 => monthlyKey (hs t2.HostCollectiveId) fc.slug t2
              == monthlyKey (hs t.HostCollectiveId) fc.slug t) [t]).map
            fun t2 => t2.amountInHostCurrency).sum
      rw [hfilt]
      simp

/-- The full `invoicesByKey` fold satisfies the grouping invariant, starting
from any accumulator that satisfies it for the already-processed prefix. -/
theorem upsert_fold_invariant (hs : Nat → String) (fc : Collective) :
    ∀ (ts proc : List Transaction) (acc : List MonthlyInvoice),
      (∀ s : String, acc.countP (fun inv => inv.slug == s)
          = if (proc.any fun t2 => monthlyKey (hs t2.HostCollectiveId) fc.slug t2 == s)
            then 1 else 0) →
      (∀ inv ∈ acc,
          inv.totalAmount = (((proc.filter fun t2 =>
                monthlyKey (hs t2.HostCollectiveId) fc.slug t2 == inv.slug).map
              fun t2 => t2.amountInHostCurrency).sum)
          ∧ ∃ t2 ∈ proc, monthlyKey (hs t2.HostCollectiveId) fc.slug t2 = inv.slug
              ∧ inv.year = t2.createdAt.year ∧ inv.month = t2.createdAt.month
              ∧ inv.HostCollectiveId = t2.HostCollectiveId) →
      (∀ s : String,
          (List.foldl (upsertInvoice hs fc) acc ts).countP (fun inv => inv.slug == s)
            = if ((proc ++ ts).any fun t2 =>
                  monthlyKey (hs t2.HostCollectiveId) fc.slug t2 == s)
              then 1 else 0)
      ∧ (∀ inv ∈ List.foldl (upsertInvoice hs fc) acc ts,
          inv.totalAmount = ((((proc ++ ts).filter fun t2 =>
                monthlyKey (hs t2.HostCollectiveId) fc.slug t2 == inv.slug).map
              fun t2 => t2.amountInHostCurrency).sum)
          ∧ ∃ t2 ∈ proc ++ ts, monthlyKey (hs t2.HostCollectiveId) fc.slug t2 = inv.slug
              ∧ inv.year = t2.createdAt.year ∧ inv.month = t2.createdAt.month
              ∧ inv.HostCollectiveId = t2.HostCollectiveId) := by
  intro ts
  induction ts with
  | nil =>
    intro proc acc hK hT
    rw [List.foldl_nil, List.append_nil]
    exact ⟨hK, hT⟩
  | cons t rest ih =>
    intro proc acc hK hT
    rw [List.foldl_cons]
    have hK2 := upsertInvoice_step_count hs fc acc proc t hK
    have hT2 := upsertInvoice_step_total hs fc acc proc t hK hT
    have hind := ih (proc ++ [t]) (upsertInvoice hs fc acc t) hK2 hT2
    rw [List.append_assoc, List.singleton_append] at hind
    exact hind

/-- The `invoicesByKey` fold from the empty object groups exactly: one invoice
per key occurring in the list, with the key's amount sum and fields from a
transaction of that key. -/
theorem upsert_fold_spec (hs : Nat → String) (fc : Collective) (ts : List Transaction) :
    (∀ s : String,
        (List.foldl (upsertInvoice hs fc) [] ts).countP (fun inv => inv.slug == s)
          = if (ts.any fun t2 => monthlyKey (hs t2.HostCollectiveId) fc.slug t2 == s)
            then 1 else 0)
    ∧ (∀ inv ∈ List.foldl (upsertInvoice hs fc) [] ts,
        inv.totalAmount = (((ts.filter fun t2 =>
              monthlyKey (hs t2.HostCollectiveId) fc.slug t2 == inv.slug).map
            fun t2 => t2.amountInHostCurrency).sum)
        ∧ ∃ t2 ∈ ts, monthlyKey (hs t2.HostCollectiveId) fc.slug t2 = inv.slug
            ∧ inv.year = t2.createdAt.year ∧ inv.month = t2.createdAt.month
            ∧ inv.HostCollectiveId = t2.HostCollectiveId) := by
  have h := upsert_fold_invariant hs fc ts [] []
    (by intro s; simp)
    (by intro inv h2; simp at h2)
  rw [List.nil_append] at h
  exact h

/-- `any` respects pointwise equality of predicates on the list's members. -/
theorem list_any_congr {α : Type} {l : List α} {p q : α → Bool}
    (h : ∀ x ∈ l, p x = q x) : l.any p = l.any q := by
  induction l with
  | nil => rfl
  | cons x xs ih =>
    rw [List.any_cons, List.any_cons, h x (by simp), ih (fun x2 hx2 => h x2 (by simp [hx2]))]

/-- What a successful `findByPk` lookup yields: a stored row with the queried
id, whose slug is what `hostsById[id].slug` reads. -/
theorem findCollectiveById_spec (db : Database) (i : Nat) (c : Collective)
    (hc : findCollectiveById db i = some c) :
    c ∈ db.collectives ∧ c.id = i ∧ hostSlugInDb db i = c.slug := by
  refine ⟨List.mem_of_find?_eq_some hc, by simpa using List.find?_some hc, ?_⟩
  rw [hostSlugInDb, hc]
  rfl

/-- Once the payer resolves, the caller is an admin and every fetched
transaction's host row exists, `allInvoices` returns the sorted grouped
fold. -/
theorem allInvoices_eval (db : Database) (u : RemoteUser) (fromCollectiveSlug : String)
    (fc : Collective)
    (hfc : findCollectiveBySlug db fromCollectiveSlug = some fc)
    (hadmin : u.isAdmin fc.id = true)
    (hhost : ∀ t ∈ allInvoicesFetch db fc.id,
        (findCollectiveById db t.HostCollectiveId).isSome) :
    allInvoices db (some u) fromCollectiveSlug
      = .ok ((List.foldl (upsertInvoice (hostSlugInDb db) fc) []
          (allInvoicesFetch db fc.id)).insertionSort slugDesc) := by
  simp only [allInvoices, hfc, hadmin, Bool.not_true, Bool.false_eq_true, if_false]
  rw [foldlM_upsert_ok db fc _ [] hhost]

/-- For a fetched transaction with an in-range date and an existing host row,
membership in the (year, month, host) group is equivalent to its grouping key
equalling the group's key. -/
theorem txInGroup_iff_key (db : Database) (fc : Collective) (y m h : Nat)
    (hy1 : 1000 ≤ y) (hy2 : y ≤ 9999) (hm1 : 1 ≤ m) (hm2 : m ≤ 12)
    (ch : Collective) (hch : findCollectiveById db h = some ch)
    (t : Transaction)
    (htyr : 1000 ≤ t.createdAt.year ∧ t.createdAt.year ≤ 9999)
    (htmo : 1 ≤ t.createdAt.month ∧ t.createdAt.month ≤ 12)
    (hthost : (findCollectiveById db t.HostCollectiveId).isSome)
    (hsl : ∀ c1 ∈ db.collectives, ∀ c2 ∈ db.collectives, c1.slug = c2.slug → c1.id = c2.id) :
    txInGroup y m h t = true
      ↔ monthlyKey (hostSlugInDb db t.HostCollectiveId) fc.slug t
        = renderNat y ++ month2digit m ++ "." ++ hostSlugInDb db h ++ "." ++ fc.slug := by
  obtain ⟨ct, hct⟩ := Option.isSome_iff_exists.mp hthost
  obtain ⟨hctmem, hctid, hctslug⟩ := findCollectiveById_spec db _ ct hct
  obtain ⟨hchmem, hchid, hchslug⟩ := findCollectiveById_spec db h ch hch
  constructor
  · intro hf
    simp only [txInGroup, Bool.and_eq_true, beq_iff_eq] at hf
    obtain ⟨hty, htm, hth⟩ := hf
    rw [monthlyKey, hty, htm, hth]
  · intro hkey
    rw [monthlyKey] at hkey
    obtain ⟨hyy, hmm, hslug⟩ := monthlyKey_components_inj t.createdAt.year y
      t.createdAt.month m (hostSlugInDb db t.HostCollectiveId) (hostSlugInDb db h) fc.slug
      htyr.1 htyr.2 hy1 hy2 htmo.1 htmo.2 hm1 hm2 hkey
    rw [hctslug, hchslug] at hslug
    have hid : ct.id = ch.id := hsl ct hctmem ch hchmem hslug
    simp only [txInGroup, Bool.and_eq_true, beq_iff_eq]
    exact ⟨hyy, hmm, by rw [← hctid, hid, hchid]⟩

/-- C1: when the payer resolves, the caller is its admin, every fetched
transaction's host collective exists, stored collectives have distinct slugs
for distinct ids, and the fetched dates are calendar-sane (4-digit year,
month 1..12), `allInvoices` succeeds and, for every (year, month, host)
triple, emits exactly one invoice when at least one matching CREDIT
transaction exists and none otherwise, and every emitted invoice's
`totalAmount` is the sum of `amountInHostCurrency` over exactly its group's
transactions. -/
theorem C1_allInvoices_grouping (db : Database) (u : RemoteUser)
    (fromCollectiveSlug : String) (fc : Collective)
    (hfc : findCollectiveBySlug db fromCollectiveSlug = some fc)
    (hadmin : u.isAdmin fc.id = true)
    (hhost : ∀ t ∈ allInvoicesFetch db fc.id,
        (findCollectiveById db t.HostCollectiveId).isSome)
    (hsl : ∀ c1 ∈ db.collectives, ∀ c2 ∈ db.collectives, c1.slug = c2.slug → c1.id = c2.id)
    (hyr : ∀ t ∈ allInvoicesFetch db fc.id,
        1000 ≤ t.createdAt.year ∧ t.createdAt.year ≤ 9999)
    (hmo : ∀ t ∈ allInvoicesFetch db fc.id,
        1 ≤ t.createdAt.month ∧ t.createdAt.month ≤ 12) :
    ∃ invoices, allInvoices db (some u) fromCollectiveSlug = .ok invoices
      ∧ ∀ y m h : Nat,
          invoices.countP (invInGroup y m h)
            = (if (allInvoicesFetch db fc.id).any (txInGroup y m h) then 1 else 0)
          ∧ ∀ inv ∈ invoices, inv.year = y → inv.month = m → inv.HostCollectiveId = h →
              inv.totalAmount = (((allInvoicesFetch db fc.id).filter (txInGroup y m h)).map
                  (fun t => t.amountInHostCurrency)).sum := by
  have hres := allInvoices_eval db u fromCollectiveSlug fc hfc hadmin hhost
  refine ⟨_, hres, ?_⟩
  intro y m h
  obtain ⟨hK, hT⟩ := upsert_fold_spec (hostSlugInDb db) fc (allInvoicesFetch db fc.id)
  set ts := allInvoicesFetch db fc.id with hts
  set built := List.foldl (upsertInvoice (hostSlugInDb db) fc) [] ts with hbuilt
  have hperm := List.perm_insertionSort slugDesc built
  by_cases hsane : (1000 ≤ y ∧ y ≤ 9999) ∧ (1 ≤ m ∧ m ≤ 12)
      ∧ ∃ c ∈ db.collectives, c.id = h
  · obtain ⟨⟨hy1, hy2⟩, ⟨hm1, hm2⟩, c0, hc0mem, hc0id⟩ := hsane
    have hchS : (findCollectiveById db h).isSome := by
      rw [findCollectiveById, List.find?_isSome]
      exact ⟨c0, hc0mem, by simpa using hc0id⟩
    obtain ⟨ch, hch⟩ := Option.isSome_iff_exists.mp hchS
    set k0 := renderNat y ++ month2digit m ++ "." ++ hostSlugInDb db h ++ "." ++ fc.slug with hk0
    have htx : ∀ t ∈ ts, txInGroup y m h t
        = (monthlyKey (hostSlugInDb db t.HostCollectiveId) fc.slug t == k0) := by
      intro t ht
      rw [Bool.eq_iff_iff, beq_iff_eq]
      exact txInGroup_iff_key db fc y m h hy1 hy2 hm1 hm2 ch hch t
        (hyr t ht) (hmo t ht) (hhost t ht) hsl
    have hiv : ∀ inv ∈ built, invInGroup y m h inv = (inv.slug == k0) := by
      intro inv hmemb
      obtain ⟨-, t2, ht2mem, ht2key, ht2y, ht2m, ht2h⟩ := hT inv hmemb
      rw [Bool.eq_iff_iff, beq_iff_eq]
      constructor
      · intro hf
        simp only [invInGroup, Bool.and_eq_true, beq_iff_eq] at hf
        obtain ⟨hiy, him, hih⟩ := hf
        have ht2f : txInGroup y m h t2 = true := by
          simp only [txInGroup, Bool.and_eq_true, beq_iff_eq]
          refine ⟨by rw [← ht2y]; exact hiy, by rw [← ht2m]; exact him,
            by rw [← ht2h]; exact hih⟩
        have hkey := (txInGroup_iff_key db fc y m h hy1 hy2 hm1 hm2 ch hch t2
          (hyr t2 ht2mem) (hmo t2 ht2mem) (hhost t2 ht2mem) hsl).mp ht2f
        rw [← ht2key, hkey]
      · intro hkeyeq
        have hk2 : monthlyKey (hostSlugInDb db t2.HostCollectiveId) fc.slug t2 = k0 := by
          rw [ht2key, hkeyeq]
        have hf2 := (txInGroup_iff_key db fc y m h hy1 hy2 hm1 hm2 ch hch t2
          (hyr t2 ht2mem) (hmo t2 ht2mem) (hhost t2 ht2mem) hsl).mpr hk2
        simp only [txInGroup, Bool.and_eq_true, beq_iff_eq] at hf2
        obtain ⟨hf2a, hf2b, hf2c⟩ := hf2
        simp only [invInGroup, Bool.and_eq_true, beq_iff_eq]
        exact ⟨by rw [ht2y]; exact hf2a, by rw [ht2m]; exact hf2b,
          by rw [ht2h]; exact hf2c⟩
    constructor
    · calc (built.insertionSort slugDesc).countP (invInGroup y m h)
          = built.countP (invInGroup y m h) := hperm.countP_eq _
        _ = built.countP (fun inv => inv.slug == k0) :=
            List.countP_congr (fun inv hmv => by rw [hiv inv hmv])
        _ = if (ts.any fun t2 =>
              monthlyKey (hostSlugInDb db t2.HostCollectiveId) fc.slug t2 == k0)
            then 1 else 0 := hK k0
        _ = if ts.any (txInGroup y m h) then 1 else 0 := by
            rw [list_any_congr (fun t ht => htx t ht)]
    · intro inv hmv hy' hm' hh'
      have hmb : inv ∈ built := hperm.mem_iff.mp hmv
      obtain ⟨htot, -⟩ := hT inv hmb
      have hfields : invInGroup y m h inv = true := by
        simp [invInGroup, hy', hm', hh']
      have hslug : inv.slug = k0 := by
        have hx := hiv inv hmb
        rw [hfields] at hx
        simpa using hx.symm
      rw [htot, hslug]
      have hfeq : ts.filter (fun t2 =>
            monthlyKey (hostSlugInDb db t2.HostCollectiveId) fc.slug t2 == k0)
          = ts.filter (txInGroup y m h) :=
        List.filter_congr (fun t ht => (htx t ht).symm)
      rw [hfeq]
  · have hnof : ∀ t ∈ ts, txInGroup y m h t = false := by
      intro t ht
      cases hx : txInGroup y m h t
      · rfl
      · exfalso
        simp only [txInGroup, Bool.and_eq_true, beq_iff_eq] at hx
        obtain ⟨hty, htm, hth⟩ := hx
        obtain ⟨ct, hct⟩ := Option.isSome_iff_exists.mp (hhost t ht)
        obtain ⟨hctmem, hctid, -⟩ := findCollectiveById_spec db _ ct hct
        exact hsane ⟨⟨by rw [← hty]; exact (hyr t ht).1, by rw [← hty]; exact (hyr t ht).2⟩,
          ⟨by rw [← htm]; exact (hmo t ht).1, by rw [← htm]; exact (hmo t ht).2⟩,
          ct, hctmem, by rw [hctid, hth]⟩
    have hanyf : ts.any (txInGroup y m h) = false :=
      List.any_eq_false.mpr (fun x hx => by simp [hnof x hx])
    have hinvf : ∀ inv ∈ built, invInGroup y m h inv = false := by
      intro inv hmb
      obtain ⟨-, t2, ht2mem, -, ht2y, ht2m, ht2h⟩ := hT inv hmb
      cases hx : invInGroup y m h inv
      · rfl
      · exfalso
        simp only [invInGroup, Bool.and_eq_true, beq_iff_eq] at hx
        obtain ⟨hiy, him, hih⟩ := hx
        have ht2f : txInGroup y m h t2 = true := by
          simp only [txInGroup, Bool.and_eq_true, beq_iff_eq]
          exact ⟨by rw [← ht2y]; exact hiy, by rw [← ht2m]; exact him,
            by rw [← ht2h]; exact hih⟩
        rw [hnof t2 ht2mem] at ht2f
        exact absurd ht2f (by simp)
    constructor
    · rw [hanyf]
      simp only [Bool.false_eq_true, if_false]
      rw [List.countP_eq_zero]
      intro inv hmv
      simp [hinvf inv (hperm.mem_iff.mp hmv)]
    · intro inv hmv hy' hm' hh'
      exfalso
      have hx := hinvf inv (hperm.mem_iff.mp hmv)
      simp [invInGroup, hy', hm', hh'] at hx

/-- Witness for C1: the fixture database satisfies every hypothesis, and the
grouping guarantee holds for its September/October 2017 groups. -/
theorem C1_allInvoices_grouping_witness :
    ∃ invoices, allInvoices dbFx (some adminFx) "alice" = .ok invoices
      ∧ ∀ y m h : Nat,
          invoices.countP (invInGroup y m h)
            = (if (allInvoicesFetch dbFx payerFx.id).any (txInGroup y m h) then 1 else 0)
          ∧ ∀ inv ∈ invoices, inv.year = y → inv.month = m → inv.HostCollectiveId = h →
              inv.totalAmount = (((allInvoicesFetch dbFx payerFx.id).filter (txInGroup y m h)).map
                  (fun t => t.amountInHostCurrency)).sum :=
  C1_allInvoices_grouping dbFx adminFx "alice" payerFx
    (by decide) (by decide) (by decide) (by decide) (by decide) (by decide)

/-- C9: whatever list `allInvoices` returns is sorted by `slug` in descending
lexicographic string order: for any two adjacent invoices, `a` before `b`, the
slug of `b` is at most the slug of `a`. -/
theorem C9_allInvoices_sorted_desc (db : Database) (u : Option RemoteUser)
    (fromCollectiveSlug : String) (invoices : List MonthlyInvoice)
    (hok : allInvoices db u fromCollectiveSlug = .ok invoices) :
    invoices.Chain' (fun a b => b.slug ≤ a.slug) := by
  unfold allInvoices at hok
  split at hok
  · simp at hok
  · split at hok
    · simp at hok
    · split at hok
      · simp at hok
      · dsimp only at hok
        split at hok
        · simp at hok
        · rw [Except.ok.injEq] at hok
          subst hok
          rename_i invoicesByKey heq
          haveI : IsTotal MonthlyInvoice slugDesc := ⟨fun a b => by
            rw [slugDesc_iff_le, slugDesc_iff_le]
            exact le_total b.slug a.slug⟩
          haveI : IsTrans MonthlyInvoice slugDesc := ⟨fun a b c hab hbc => by
            rw [slugDesc_iff_le] at hab hbc ⊢
            exact le_trans hbc hab⟩
          have hp := List.sorted_insertionSort slugDesc invoicesByKey
          exact List.Pairwise.chain' (hp.imp (fun h => (slugDesc_iff_le _ _).mp h))

/-- Witness for C9: on the fixture database the returned list (October 2017
then September 2017) is slug-descending. -/
theorem C9_allInvoices_sorted_desc_witness :
    ∃ invs, allInvoices dbFx (some adminFx) "alice" = .ok invs
      ∧ invs.Chain' (fun a b => b.slug ≤ a.slug) := by
  have h : allInvoices dbFx (some adminFx) "alice" = .ok
      [{ HostCollectiveId := 2, FromCollectiveId := 1, slug := "201710.hosty.alice",
         year := 2017, month := 10, totalAmount := 1500, currency := "EUR" },
       { HostCollectiveId := 2, FromCollectiveId := 1, slug := "201709.hosty.alice",
         year := 2017, month := 9, totalAmount := 1000, currency := "EUR" }] := by decide
  exact ⟨_, h, C9_allInvoices_sorted_desc dbFx (some adminFx) "alice" _ h⟩

end OpenCollective
